import Mathlib

/-!
Verification of the `inable_nav` question-paper navigation engine
(`src/question_paper/mod.rs`) against its specification.

The session state (`QuestionPaper`), the bidirectional skip-counting
search (`Find` / the `Iterator` and `DoubleEndedIterator` impls), and the
intent dispatcher (`resolve_intent`, `Reader`, `Writer`) are translated
from the Rust source.  Machine integers (`usize`) are modelled as `Nat`
with explicit wraparound modulo `2 ^ 64` where the source performs
subtraction that can underflow (release-build wrapping semantics); a
Rust panic (a failing `Option::unwrap`) is modelled as the `.error ()`
branch of an `Except Unit` result.

The repository modules `interface.rs`, `intents.rs` and `builder.rs` are
not part of the sources; the types they declare (`Node`, `Predicate`,
`Reference`, the intent enums, `Note`) are modelled from the spec where
so marked.
-/

namespace InableNav

/-- Modelled from the spec: node kinds (missing `interface.rs`); tag is
Question or Section (spec section 3, "tag ∈ \x7bQuestion, Section\x7d"). -/
inductive NodeKind where
  | Question
  | Section
deriving DecidableEq, Repr

/-- Modelled from the spec: opaque node content (`NodeData`, missing
`interface.rs`); represented as a string. -/
abbrev NodeData := String

/-- Modelled from the spec: one document element, a tag plus opaque
content (missing `interface.rs`). -/
structure Node where
  kind : NodeKind
  data : NodeData
deriving DecidableEq, Repr

/-- Modelled from the spec: an `(index, text)` note record (missing
`interface.rs`); field names follow the use sites in `mod.rs`. -/
structure Note where
  note : String
  index : Nat
deriving DecidableEq, Repr

/-- Modelled from the spec: a relative reference, an anchor kind with a
signed offset (missing `intents.rs`). -/
inductive Reference where
  | Start (n : Int)
  | Current (n : Int)
  | End (n : Int)
deriving DecidableEq, Repr

/-- Modelled from the spec: search direction of a reference (missing
`intents.rs`): `Start` is always forward, `Current n` is forward iff
`0 ≤ n`, `End` is always backward (spec section 4.3). -/
def Reference.is_forward : Reference → Bool
  | .Start _ => true
  | .Current n => decide (0 ≤ n)
  | .End _ => false

/-- Modelled from the spec: read intents (missing `intents.rs`). -/
inductive Read where
  | Question (r : Reference)
  | Section (r : Reference)
deriving DecidableEq, Repr

/-- The reference carried by a read intent. -/
def Read.reference : Read → Reference
  | .Question r => r
  | .Section r => r

/-- Modelled from the spec: write intents, each carrying a list of read
intents (missing `intents.rs`). -/
inductive Write where
  | Mark (reads : List Read)
  | Skip (reads : List Read)
  | Note (reads : List Read) (note : String)
deriving DecidableEq, Repr

/-- The read-intent list carried by a write intent. -/
def Write.reads : Write → List Read
  | .Mark rs => rs
  | .Skip rs => rs
  | .Note rs _ => rs

/-- Modelled from the spec: meta intents (missing `intents.rs`). -/
inductive MetaIntent where
  | Marked
  | Skipped
deriving DecidableEq, Repr

/-- Modelled from the spec: the top-level intent type (missing
`intents.rs`). -/
inductive Intent where
  | ReadIntent (r : Read)
  | WriteIntent (w : Write)
  | Meta (m : MetaIntent)
deriving DecidableEq, Repr

/-- Modelled from the spec: the payload of a successful read resolution,
the indexed view of the matched node (absolute index plus data); in the
source this is what `find_node` / `resolve_intent` read `.index` and
`.data` from. -/
structure RNode where
  index : Nat
  data : NodeData
deriving DecidableEq, Repr

/-- `ReadResult` from `intents.rs`: a resolved node or an error string
(the source uses `Cow<str>`). -/
abbrev ReadResult := Except String RNode

/-- `WriteResult` from `intents.rs`: tagged success/error status. -/
inductive WriteResult where
  | Success (s : String)
  | Error (s : String)
deriving DecidableEq, Repr

/-- `IntentResult` from `intents.rs`: the response of `resolve_intent`;
the read branch carries `Ok(node.data.clone())`. -/
inductive IntentResult where
  | Read (r : Except String NodeData)
  | Write (w : WriteResult)
  | Meta (s : String)
deriving Repr

/-- `predicates::QuestionPredicate` (`interface.rs`, modelled from the
spec): matches exactly the Question-tagged nodes. -/
def QuestionPredicate (nd : Node) : Bool :=
  match nd.kind with
  | .Question => true
  | .Section => false

/-- `predicates::SectionPredicate` (`interface.rs`, modelled from the
spec): matches exactly the Section-tagged nodes. -/
def SectionPredicate (nd : Node) : Bool :=
  match nd.kind with
  | .Question => false
  | .Section => true

/-- The session state, `struct QuestionPaper` (`mod.rs` lines 16-25).
`HashMap<usize, NodeData>` is modelled as an association list with
unique keys; `Vec` as `List`. -/
structure QuestionPaper where
  nodes : List Node
  prev_index : Nat
  last_index : Nat
  total_questions : Nat
  marked : List (Nat × NodeData)
  skipped : List (Nat × NodeData)
  notes : List Note
deriving DecidableEq, Repr

/-- `QuestionPaper::new` (`mod.rs` lines 30-40). -/
def QuestionPaper.new (nodes : List Node) (last_index : Nat)
    (total_questions : Nat) : QuestionPaper :=
  ⟨nodes, 0, last_index, total_questions, [], [], []⟩

/-- The modulus of Rust `usize` on a 64-bit target. -/
def USIZE : Nat := 2 ^ 64

/-- Wrapping `usize` decrement: the value `skip - 1` computes to in a
release build (`n = 0` wraps to `USIZE - 1`; a checked build panics
there instead). -/
def wrapSub1 (n : Nat) : Nat :=
  (n + (USIZE - 1)) % USIZE

/-- `HashMap::insert` on the association-list model: the new binding
replaces any previous binding of the same key. -/
def hmInsert (m : List (Nat × NodeData)) (k : Nat) (v : NodeData) :
    List (Nat × NodeData) :=
  (k, v) :: m.filter (fun p => p.1 != k)

/-- The search state `struct Find` (`mod.rs` lines 268-273), minus the
borrowed paper (passed separately to the traversal functions). -/
structure Find where
  predicate : Node → Bool
  next : Nat
  skip : Nat

/-- `QuestionPaper::find` (`mod.rs` lines 43-50): builds the search
state; note the source initializes the field with `skip: skip - 1`,
a `usize` subtraction, modelled by `wrapSub1`. -/
def QuestionPaper.find (_qp : QuestionPaper) (p : Node → Bool)
    (next skip : Nat) : Find :=
  ⟨p, next, wrapSub1 skip⟩

/-- `QuestionPaper::nth` (`mod.rs` lines 53-55): the indexed view at
`index`, `None` when out of range (modelled from the spec for the
missing `NodeIndex::new`). -/
def QuestionPaper.nth (qp : QuestionPaper) (index : Nat) : Option Node :=
  qp.nodes[index]?

/-- The `Iterator::next` loop of `Find` (`mod.rs` lines 275-296): scan
the suffix of the sequence starting at absolute index `i` (the list
argument is that suffix); a predicate match decrements the remaining
skip counter when it is at least 1, otherwise the node is returned.
The loop guard `self.next < len` guarantees the source's
`nth(next).unwrap()` cannot panic, which the suffix traversal mirrors. -/
def scanFwd (p : Node → Bool) : List Node → Nat → Nat → Option (Nat × Node)
  | [], _, _ => none
  | nd :: rest, i, skip =>
    if p nd then
      if 1 ≤ skip then scanFwd p rest (i + 1) (skip - 1)
      else some (i, nd)
    else scanFwd p rest (i + 1) skip

/-- The `DoubleEndedIterator::next_back` loop of `Find` (`mod.rs` lines
299-318): while `next > 0`, read `nth(next).unwrap()` — a panic
(`.error ()`) when `next` is out of range — then decrement `next`;
matches consume the skip counter exactly as in the forward scan.
Index 0 is never examined because the guard `next > 0` is tested before
the read and `next` has already been decremented past it. -/
def scanBack (nodes : List Node) (p : Node → Bool) :
    Nat → Nat → Except Unit (Option (Nat × Node))
  | 0, _ => .ok none
  | m + 1, skip =>
    match nodes[m + 1]? with
    | none => .error ()
    | some nd =>
      if p nd then
        if 1 ≤ skip then scanBack nodes p m (skip - 1)
        else .ok (some (m + 1, nd))
      else scanBack nodes p m skip

/-- `Reader::find_next` (`mod.rs` lines 198-204): one forward search
step, wrapping the found node or producing the not-found error. -/
def QuestionPaper.find_next (qp : QuestionPaper) (f : Find) : ReadResult :=
  match scanFwd f.predicate (qp.nodes.drop f.next) f.next f.skip with
  | some x => .ok ⟨x.1, x.2.data⟩
  | none => .error "Could not find a next node"

/-- `Reader::find_back` (`mod.rs` lines 207-213): one backward search
step; the inner panic of `next_back` propagates. -/
def QuestionPaper.find_back (qp : QuestionPaper) (f : Find) :
    Except Unit ReadResult :=
  match scanBack qp.nodes f.predicate f.next f.skip with
  | .error () => .error ()
  | .ok (some x) => .ok (.ok ⟨x.1, x.2.data⟩)
  | .ok none => .ok (.error "Could not resolve a previous node")

/-- `Reader::resolve` (`mod.rs` lines 186-195): build the finder and
search in the reference's direction. -/
def QuestionPaper.resolve (qp : QuestionPaper) (p : Node → Bool)
    (prev skip : Nat) (ref : Reference) : Except Unit ReadResult :=
  let finder := qp.find p prev skip
  if ref.is_forward then .ok (qp.find_next finder)
  else qp.find_back finder

/-- `Reader::resolve_referece` (`mod.rs` lines 173-184, source spelling
kept): anchor and skip count per anchor kind — `Start n ↦ (0, |n|)`,
`Current n ↦ (prev_index, |n| + 1)`, `End n ↦ (last_index, |n|)`. -/
def QuestionPaper.resolve_referece (qp : QuestionPaper) (p : Node → Bool)
    (ref : Reference) : Except Unit ReadResult :=
  match ref with
  | .Start n => qp.resolve p 0 n.natAbs ref
  | .Current n => qp.resolve p qp.prev_index (n.natAbs + 1) ref
  | .End n => qp.resolve p qp.last_index n.natAbs ref

/-- `Reader::resolve_question` (`mod.rs` lines 159-163). -/
def QuestionPaper.resolve_question (qp : QuestionPaper) (ref : Reference) :
    Except Unit ReadResult :=
  qp.resolve_referece QuestionPredicate ref

/-- `Reader::resolve_section` (`mod.rs` lines 166-170). -/
def QuestionPaper.resolve_section (qp : QuestionPaper) (ref : Reference) :
    Except Unit ReadResult :=
  qp.resolve_referece SectionPredicate ref

/-- `Reader::resolve_read_intent` (`mod.rs` lines 151-156). -/
def QuestionPaper.resolve_read_intent (qp : QuestionPaper) :
    Read → Except Unit ReadResult
  | .Question r => qp.resolve_question r
  | .Section r => qp.resolve_section r

/-- The loop body of `QuestionPaper::find_node` (`mod.rs` lines
133-145): every read intent in the list is resolved in order, the
accumulator keeping only the latest result; an empty list yields the
could-not-find error. -/
def QuestionPaper.find_nodeAux (qp : QuestionPaper) :
    List Read → Option ReadResult → Except Unit ReadResult
  | [], none => .ok (.error "Could not find the specified request")
  | [], some r => .ok r
  | rd :: rest, _ =>
    match qp.resolve_read_intent rd with
    | .error () => .error ()
    | .ok res => qp.find_nodeAux rest (some res)

/-- `QuestionPaper::find_node` (`mod.rs` lines 133-145). -/
def QuestionPaper.find_node (qp : QuestionPaper) (reads : List Read) :
    Except Unit ReadResult :=
  qp.find_nodeAux reads none

/-- `Writer::mark_for_review` (`mod.rs` lines 229-238). -/
def QuestionPaper.mark_for_review (qp : QuestionPaper) (reads : List Read) :
    Except Unit (QuestionPaper × WriteResult) :=
  match qp.find_node reads with
  | .error () => .error ()
  | .ok (.ok node) =>
    .ok ({ qp with marked := hmInsert qp.marked node.index node.data },
      .Success "Question has been marked for review")
  | .ok (.error _) =>
    .ok (qp, .Error "Could not mark the specified item for review. Please try again")

/-- `Writer::skip` (`mod.rs` lines 240-248). -/
def QuestionPaper.skip (qp : QuestionPaper) (reads : List Read) :
    Except Unit (QuestionPaper × WriteResult) :=
  match qp.find_node reads with
  | .error () => .error ()
  | .ok (.ok node) =>
    .ok ({ qp with skipped := hmInsert qp.skipped node.index node.data },
      .Success "Question has been skipped")
  | .ok (.error _) =>
    .ok (qp, .Error "Could not skip the specified item. Please try again")

/-- `Writer::note` (`mod.rs` lines 251-264, success message spelling
kept from the source). -/
def QuestionPaper.note (qp : QuestionPaper) (reads : List Read)
    (note : String) : Except Unit (QuestionPaper × WriteResult) :=
  match qp.find_node reads with
  | .error () => .error ()
  | .ok (.ok node) =>
    .ok ({ qp with notes := qp.notes ++ [⟨note, node.index⟩] },
      .Success "A not has been taken")
  | .ok (.error _) =>
    .ok (qp, .Error "Could not take a note as requested")

/-- `Writer::resolve_write_intent` (`mod.rs` lines 219-225). -/
def QuestionPaper.resolve_write_intent (qp : QuestionPaper) :
    Write → Except Unit (QuestionPaper × WriteResult)
  | .Mark reads => qp.mark_for_review reads
  | .Skip reads => qp.skip reads
  | .Note reads note => qp.note reads note

/-- `QuestionPaper::update_previous` (`mod.rs` lines 71-73). -/
def QuestionPaper.update_previous (qp : QuestionPaper) (index : Nat) :
    QuestionPaper :=
  { qp with prev_index := index }

/-- `QuestionPaper::num_marked` (`mod.rs` lines 115-117). -/
def QuestionPaper.num_marked (qp : QuestionPaper) : Nat :=
  qp.marked.length

/-- `QuestionPaper::num_skipped` (`mod.rs` lines 123-125). -/
def QuestionPaper.num_skipped (qp : QuestionPaper) : Nat :=
  qp.skipped.length

/-- `QuestionPaper::len` (`mod.rs` lines 58-60). -/
def QuestionPaper.len (qp : QuestionPaper) : Nat :=
  qp.nodes.length

/-- `QuestionPaper::resolve_intent` (`mod.rs` lines 76-112): the intent
dispatcher.  A successful read updates `prev_index` via
`update_previous`; meta intents format the counts. -/
def QuestionPaper.resolve_intent (qp : QuestionPaper) :
    Intent → Except Unit (QuestionPaper × IntentResult)
  | .ReadIntent rd =>
    match qp.resolve_read_intent rd with
    | .error () => .error ()
    | .ok (.ok node) =>
      .ok (qp.update_previous node.index, .Read (.ok node.data))
    | .ok (.error e) => .ok (qp, .Read (.error e))
  | .WriteIntent w =>
    match qp.resolve_write_intent w with
    | .error () => .error ()
    | .ok out => .ok (out.1, .Write out.2)
  | .Meta m =>
    match m with
    | .Marked =>
      .ok (qp, .Meta ("You have " ++ toString qp.marked.length ++ " marked questions"))
    | .Skipped =>
      .ok (qp, .Meta ("You have skipped " ++ toString qp.skipped.length ++ " question"))

/-- The example sequence of the spec's properties P1-P3: kinds
`[Q, S, Q, Q, S]`. -/
def exNodes : List Node :=
  [⟨.Question, "q0"⟩, ⟨.Section, "s1"⟩, ⟨.Question, "q2"⟩,
   ⟨.Question, "q3"⟩, ⟨.Section, "s4"⟩]

/-- A fresh session over `exNodes` with `last_index = 4`. -/
def qp0 : QuestionPaper :=
  QuestionPaper.new exNodes 4 3

/-- The session `qp0` after a successful read has set the cursor to
index 2 (the state produced by reading `Question(Start(2))`). -/
def qp1 : QuestionPaper :=
  { qp0 with prev_index := 2 }

/-- The session `qp0` after a successful read has set the cursor to
index 4 (the state produced by reading `Section(Start(1))` twice or
`Question(Start(4))`). -/
def qp2 : QuestionPaper :=
  { qp0 with prev_index := 4 }

/-- The error message a failed write intent reports, per intent kind
(`mod.rs` lines 237, 247, 261). -/
def write_error_msg : Write → String
  | .Mark _ => "Could not mark the specified item for review. Please try again"
  | .Skip _ => "Could not skip the specified item. Please try again"
  | .Note _ _ => "Could not take a note as requested"

/-- The success message a write intent reports, per intent kind
(`mod.rs` lines 234, 244, 258; source spelling kept). -/
def write_success_msg : Write → String
  | .Mark _ => "Question has been marked for review"
  | .Skip _ => "Question has been skipped"
  | .Note _ _ => "A not has been taken"

/-- The state change a successful write performs on the node its
deciding read resolved: `Mark` and `Skip` insert into their map,
`Note` appends an `(index, text)` record (`mod.rs` lines 231, 242,
253-256). -/
def write_apply (qp : QuestionPaper) (w : Write) (node : RNode) :
    QuestionPaper :=
  match w with
  | .Mark _ => { qp with marked := hmInsert qp.marked node.index node.data }
  | .Skip _ => { qp with skipped := hmInsert qp.skipped node.index node.data }
  | .Note _ s => { qp with notes := qp.notes ++ [⟨s, node.index⟩] }

/-- Number of predicate matches among the first `j` nodes (indices
strictly below `j`). -/
def matchCountTo (p : Node → Bool) (nodes : List Node) (j : Nat) : Nat :=
  ((nodes.take j).filter p).length

/-- Number of predicate matches among the `k` nodes starting at index
`a` (indices in `[a, a + k)`). -/
def matchCountSeg (p : Node → Bool) (nodes : List Node) (a k : Nat) : Nat :=
  (((nodes.drop a).take k).filter p).length

/-- Number of predicate matches at readable indices `j` with
`i < j ≤ m` (the indices a backward scan from `m` examines before
reaching `i`). -/
def matchCountIn (nodes : List Node) (p : Node → Bool) (i : Nat) :
    Nat → Nat
  | 0 => 0
  | m + 1 =>
    (if i < m + 1 then
      (match nodes[m + 1]? with
       | some nd => if p nd then 1 else 0
       | none => 0)
     else 0) + matchCountIn nodes p i m

/-- The spec's session-state invariant: every index stored in `marked`,
`skipped` or `notes` is a valid position of the node sequence. -/
def StateInv (qp : QuestionPaper) : Prop :=
  (∀ kv ∈ qp.marked, kv.1 < qp.nodes.length) ∧
  (∀ kv ∈ qp.skipped, kv.1 < qp.nodes.length) ∧
  (∀ nt ∈ qp.notes, nt.index < qp.nodes.length)

/-! Helper lemmas about the wrapping decrement and the two scans. -/

/-- For a positive (and representable) skip count, the wrapping
decrement is the ordinary decrement. -/
theorem wrapSub1_pos (n : Nat) (h1 : 1 ≤ n) (h2 : n ≤ USIZE) :
    wrapSub1 n = n - 1 := by
  have hu : 0 < USIZE := by norm_num [USIZE]
  unfold wrapSub1
  have h3 : n + (USIZE - 1) = (n - 1) + USIZE := by omega
  rw [h3, Nat.add_mod_right]
  exact Nat.mod_eq_of_lt (by omega)

/-- Decrementing a zero skip count wraps around to `USIZE - 1`. -/
theorem wrapSub1_zero : wrapSub1 0 = USIZE - 1 := by
  have hu : 0 < USIZE := by norm_num [USIZE]
  unfold wrapSub1
  rw [Nat.zero_add]
  exact Nat.mod_eq_of_lt (by omega)

/-- A defined list lookup implies the index is in range. -/
theorem lookup_some_lt {l : List Node} {k : Nat} {nd : Node}
    (h : l[k]? = some nd) : k < l.length := by
  by_contra hk
  rw [List.getElem?_eq_none (by omega)] at h
  cases h

/-- Soundness of the forward scan: a returned node lies at offset `k`
of the scanned suffix, satisfies the predicate, and exactly `skip`
earlier elements of the suffix satisfied it. -/
theorem scanFwd_some (p : Node → Bool) :
    ∀ (l : List Node) (i skip j : Nat) (nd : Node),
      scanFwd p l i skip = some (j, nd) →
      ∃ k, j = i + k ∧ l[k]? = some nd ∧ p nd = true ∧
        ((l.take k).filter p).length = skip := by
  intro l
  induction l with
  | nil =>
    intro i skip j nd h
    simp [scanFwd] at h
  | cons nd0 rest ih =>
    intro i skip j nd h
    by_cases hp : p nd0
    · by_cases hs : 1 ≤ skip
      · rw [scanFwd, if_pos hp, if_pos hs] at h
        obtain ⟨k, hk, hget, hpnd, hcnt⟩ := ih (i + 1) (skip - 1) j nd h
        refine ⟨k + 1, by omega, by simpa using hget, hpnd, ?_⟩
        simp only [List.take_succ_cons, List.filter_cons, hp, if_pos,
          List.length_cons]
        omega
      · rw [scanFwd, if_pos hp, if_neg hs] at h
        simp only [Option.some.injEq, Prod.mk.injEq] at h
        obtain ⟨hj, hnd⟩ := h
        subst hj
        subst hnd
        exact ⟨0, by omega, by simp, hp, by simp; omega⟩
    · rw [scanFwd, if_neg hp] at h
      obtain ⟨k, hk, hget, hpnd, hcnt⟩ := ih (i + 1) skip j nd h
      refine ⟨k + 1, by omega, by simpa using hget, hpnd, ?_⟩
      simpa [List.take_succ_cons, List.filter_cons, hp] using hcnt

/-- The forward scan finds nothing once the skip counter is at least
the length of the remaining suffix. -/
theorem scanFwd_none (p : Node → Bool) :
    ∀ (l : List Node) (i skip : Nat), l.length ≤ skip →
      scanFwd p l i skip = none := by
  intro l
  induction l with
  | nil => intro i skip _; rfl
  | cons nd0 rest ih =>
    intro i skip h
    have hs : 1 ≤ skip := by simp at h; omega
    by_cases hp : p nd0
    · rw [scanFwd, if_pos hp, if_pos hs]
      exact ih (i + 1) (skip - 1) (by simp at h; omega)
    · rw [scanFwd, if_neg hp]
      exact ih (i + 1) skip (by simp at h; omega)

/-- Indices at or above the lower bound contribute no backward-scan
matches. -/
theorem matchCountIn_zero (nodes : List Node) (p : Node → Bool) :
    ∀ m i, m ≤ i → matchCountIn nodes p i m = 0 := by
  intro m
  induction m with
  | zero => intro i _; rfl
  | succ m ih =>
    intro i h
    rw [matchCountIn, if_neg (by omega), ih i (by omega)]

/-- Soundness of the backward scan: a returned node is at a readable
index in `[1, next]`, satisfies the predicate, and exactly `skip`
matches were seen strictly above it (at or below `next`). -/
theorem scanBack_some (nodes : List Node) (p : Node → Bool) :
    ∀ (next skip i : Nat) (nd : Node),
      scanBack nodes p next skip = .ok (some (i, nd)) →
      1 ≤ i ∧ i ≤ next ∧ nodes[i]? = some nd ∧ p nd = true ∧
        matchCountIn nodes p i next = skip := by
  intro next
  induction next with
  | zero =>
    intro skip i nd h
    simp [scanBack] at h
  | succ m ih =>
    intro skip i nd h
    rw [scanBack] at h
    cases hget : nodes[m + 1]? with
    | none =>
      rw [hget] at h
      cases h
    | some nd0 =>
      rw [hget] at h
      dsimp only at h
      by_cases hp : p nd0
      · by_cases hs : 1 ≤ skip
        · rw [if_pos hp, if_pos hs] at h
          obtain ⟨h1, h2, h3, h4, h5⟩ := ih (skip - 1) i nd h
          refine ⟨h1, by omega, h3, h4, ?_⟩
          rw [matchCountIn, if_pos (by omega : i < m + 1), hget]
          dsimp only
          rw [if_pos hp, h5]
          omega
        · rw [if_pos hp, if_neg hs] at h
          simp only [Except.ok.injEq, Option.some.injEq, Prod.mk.injEq] at h
          obtain ⟨hi, hnd⟩ := h
          subst hnd
          refine ⟨by omega, by omega, by rw [← hi]; exact hget, hp, ?_⟩
          rw [← hi, matchCountIn, if_neg (by omega),
            matchCountIn_zero nodes p m (m + 1) (by omega)]
          omega
      · rw [if_neg hp] at h
        obtain ⟨h1, h2, h3, h4, h5⟩ := ih skip i nd h
        refine ⟨h1, by omega, h3, h4, ?_⟩
        rw [matchCountIn, if_pos (by omega : i < m + 1), hget]
        dsimp only
        rw [if_neg hp, h5]
        omega

/-- The backward scan over a readable range finds nothing once the skip
counter is at least the number of indices it can examine. -/
theorem scanBack_none (nodes : List Node) (p : Node → Bool) :
    ∀ (next skip : Nat), next < nodes.length → next ≤ skip →
      scanBack nodes p next skip = .ok none := by
  intro next
  induction next with
  | zero => intro skip _ _; rfl
  | succ m ih =>
    intro skip h1 h2
    rw [scanBack, List.getElem?_eq_getElem h1]
    dsimp only
    by_cases hp : p (nodes[m + 1])
    · rw [if_pos hp, if_pos (by omega)]
      exact ih (skip - 1) (by omega) (by omega)
    · rw [if_neg hp]
      exact ih skip (by omega) (by omega)

/-- The backward scan never panics while its cursor is in range. -/
theorem scanBack_no_panic (nodes : List Node) (p : Node → Bool) :
    ∀ next, next < nodes.length → ∀ skip,
      ∃ r, scanBack nodes p next skip = .ok r := by
  intro next
  induction next with
  | zero => intro _ skip; exact ⟨none, rfl⟩
  | succ m ih =>
    intro h skip
    rw [scanBack, List.getElem?_eq_getElem h]
    dsimp only
    by_cases hp : p (nodes[m + 1])
    · by_cases hs : 1 ≤ skip
      · rw [if_pos hp, if_pos hs]
        exact ih (by omega) (skip - 1)
      · rw [if_pos hp, if_neg hs]
        exact ⟨some (m + 1, nodes[m + 1]), rfl⟩
    · rw [if_neg hp]
      exact ih (by omega) skip

/-- A successful forward search returns an in-range index at or after
the scan start. -/
theorem find_next_ok (qp : QuestionPaper) (f : Find) (node : RNode)
    (h : qp.find_next f = .ok node) :
    node.index < qp.nodes.length ∧ f.next ≤ node.index := by
  unfold QuestionPaper.find_next at h
  cases hscan : scanFwd f.predicate (qp.nodes.drop f.next) f.next f.skip with
  | none => rw [hscan] at h; cases h
  | some x =>
    obtain ⟨j, nd⟩ := x
    rw [hscan] at h
    obtain ⟨k, hk, hget, _h1, _h2⟩ :=
      scanFwd_some f.predicate (qp.nodes.drop f.next) f.next f.skip j nd hscan
    have hlt := lookup_some_lt hget
    rw [List.length_drop] at hlt
    simp only [Except.ok.injEq] at h
    subst h
    dsimp only
    exact ⟨by omega, by omega⟩

/-- A successful backward search returns an in-range index in
`[1, f.next]`. -/
theorem find_back_ok (qp : QuestionPaper) (f : Find) (node : RNode)
    (h : qp.find_back f = .ok (.ok node)) :
    1 ≤ node.index ∧ node.index ≤ f.next ∧ node.index < qp.nodes.length := by
  unfold QuestionPaper.find_back at h
  cases hscan : scanBack qp.nodes f.predicate f.next f.skip with
  | error e => rw [hscan] at h; cases h
  | ok r =>
    rw [hscan] at h
    cases r with
    | none => simp at h
    | some x =>
      obtain ⟨i, nd⟩ := x
      obtain ⟨h1, h2, h3, _h4, _h5⟩ :=
        scanBack_some qp.nodes f.predicate f.next f.skip i nd hscan
      simp only [Except.ok.injEq] at h
      subst h
      exact ⟨h1, h2, lookup_some_lt h3⟩

/-- Backward resolution never produces the node at index 0. -/
theorem resolve_back_pos (qp : QuestionPaper) (p : Node → Bool)
    (prev skip : Nat) (ref : Reference) (node : RNode)
    (hdir : ref.is_forward = false)
    (h : qp.resolve p prev skip ref = .ok (.ok node)) :
    1 ≤ node.index := by
  unfold QuestionPaper.resolve at h
  rw [hdir] at h
  simp at h
  exact (find_back_ok qp _ node h).1

/-- A successfully resolved reference denotes an in-range index. -/
theorem resolve_ok_lt (qp : QuestionPaper) (p : Node → Bool)
    (prev skip : Nat) (ref : Reference) (node : RNode)
    (h : qp.resolve p prev skip ref = .ok (.ok node)) :
    node.index < qp.nodes.length := by
  unfold QuestionPaper.resolve at h
  by_cases hdir : ref.is_forward
  · rw [hdir] at h
    simp at h
    exact (find_next_ok qp _ node h).1
  · simp only [Bool.not_eq_true] at hdir
    rw [hdir] at h
    simp at h
    exact (find_back_ok qp _ node h).2.2

/-- `resolve_referece` only returns in-range indices. -/
theorem resolve_referece_ok_lt (qp : QuestionPaper) (p : Node → Bool)
    (ref : Reference) (node : RNode)
    (h : qp.resolve_referece p ref = .ok (.ok node)) :
    node.index < qp.nodes.length := by
  cases ref with
  | Start n =>
    simp only [QuestionPaper.resolve_referece] at h
    exact resolve_ok_lt qp p 0 n.natAbs (.Start n) node h
  | Current n =>
    simp only [QuestionPaper.resolve_referece] at h
    exact resolve_ok_lt qp p qp.prev_index (n.natAbs + 1) (.Current n) node h
  | End n =>
    simp only [QuestionPaper.resolve_referece] at h
    exact resolve_ok_lt qp p qp.last_index n.natAbs (.End n) node h

/-- A successfully resolved read intent denotes an in-range index. -/
theorem resolve_read_intent_ok_lt (qp : QuestionPaper) (rd : Read)
    (node : RNode) (h : qp.resolve_read_intent rd = .ok (.ok node)) :
    node.index < qp.nodes.length := by
  cases rd with
  | Question r => exact resolve_referece_ok_lt qp QuestionPredicate r node h
  | Section r => exact resolve_referece_ok_lt qp SectionPredicate r node h

/-- The backward search does not panic when it starts in range. -/
theorem find_back_no_panic (qp : QuestionPaper) (f : Find)
    (h : f.next < qp.nodes.length) :
    ∃ r, qp.find_back f = .ok r := by
  obtain ⟨r, hr⟩ := scanBack_no_panic qp.nodes f.predicate f.next h f.skip
  cases r with
  | none =>
    refine ⟨.error "Could not resolve a previous node", ?_⟩
    unfold QuestionPaper.find_back
    rw [hr]
  | some x =>
    obtain ⟨i, nd⟩ := x
    refine ⟨.ok ⟨i, nd.data⟩, ?_⟩
    unfold QuestionPaper.find_back
    rw [hr]

/-- Reference resolution does not panic when both anchors are in
range. -/
theorem resolve_referece_no_panic (qp : QuestionPaper)
    (hp : qp.prev_index < qp.nodes.length)
    (hl : qp.last_index < qp.nodes.length)
    (p : Node → Bool) (ref : Reference) :
    ∃ r, qp.resolve_referece p ref = .ok r := by
  cases ref with
  | Start n =>
    exact ⟨qp.find_next (qp.find p 0 n.natAbs),
      by simp [QuestionPaper.resolve_referece, QuestionPaper.resolve,
        Reference.is_forward]⟩
  | Current n =>
    by_cases h0 : (0 : Int) ≤ n
    · exact ⟨qp.find_next (qp.find p qp.prev_index (n.natAbs + 1)),
        by simp [QuestionPaper.resolve_referece, QuestionPaper.resolve,
          Reference.is_forward, h0]⟩
    · obtain ⟨r, hr⟩ :=
        find_back_no_panic qp (qp.find p qp.prev_index (n.natAbs + 1)) hp
      have hgoal : qp.resolve_referece p (.Current n) =
          qp.find_back (qp.find p qp.prev_index (n.natAbs + 1)) := by
        simp [QuestionPaper.resolve_referece, QuestionPaper.resolve,
          Reference.is_forward, h0]
      rw [hgoal]
      exact ⟨r, hr⟩
  | End n =>
    obtain ⟨r, hr⟩ := find_back_no_panic qp (qp.find p qp.last_index n.natAbs) hl
    have hgoal : qp.resolve_referece p (.End n) =
        qp.find_back (qp.find p qp.last_index n.natAbs) := by
      simp [QuestionPaper.resolve_referece, QuestionPaper.resolve,
        Reference.is_forward]
    rw [hgoal]
    exact ⟨r, hr⟩

/-- Read-intent resolution does not panic when both anchors are in
range. -/
theorem resolve_read_intent_no_panic (qp : QuestionPaper)
    (hp : qp.prev_index < qp.nodes.length)
    (hl : qp.last_index < qp.nodes.length) (rd : Read) :
    ∃ r, qp.resolve_read_intent rd = .ok r := by
  cases rd with
  | Question r => exact resolve_referece_no_panic qp hp hl QuestionPredicate r
  | Section r => exact resolve_referece_no_panic qp hp hl SectionPredicate r

/-- The `find_node` accumulator loop keeps only the resolution of the
last read intent of the list. -/
theorem find_nodeAux_last (qp : QuestionPaper)
    (hp : qp.prev_index < qp.nodes.length)
    (hl : qp.last_index < qp.nodes.length) :
    ∀ (reads : List Read) (r : Read) (acc : Option ReadResult),
      reads.getLast? = some r →
      qp.find_nodeAux reads acc = qp.resolve_read_intent r := by
  intro reads
  induction reads with
  | nil => intro r acc h; simp at h
  | cons rd rest ih =>
    intro r acc h
    cases rest with
    | nil =>
      have hr : rd = r := by simpa using h
      subst hr
      cases hres : qp.resolve_read_intent rd with
      | error e => cases e; simp [QuestionPaper.find_nodeAux, hres]
      | ok res => simp [QuestionPaper.find_nodeAux, hres]
    | cons rd2 rest2 =>
      have h2 : (rd2 :: rest2).getLast? = some r := by
        rw [List.getLast?_cons_cons] at h
        exact h
      obtain ⟨res, hres⟩ := resolve_read_intent_no_panic qp hp hl rd
      have hstep : qp.find_nodeAux (rd :: rd2 :: rest2) acc =
          qp.find_nodeAux (rd2 :: rest2) (some res) := by
        simp [QuestionPaper.find_nodeAux, hres]
      rw [hstep]
      exact ih r (some res) h2

/-- `find_node` on a non-empty list is the resolution of its last
element (no earlier element can panic when the anchors are in range). -/
theorem find_node_last (qp : QuestionPaper)
    (hp : qp.prev_index < qp.nodes.length)
    (hl : qp.last_index < qp.nodes.length)
    (reads : List Read) (r : Read) (h : reads.getLast? = some r) :
    qp.find_node reads = qp.resolve_read_intent r :=
  find_nodeAux_last qp hp hl reads r none h

/-- A node produced by the `find_node` loop comes from resolving one of
the read intents of the list (or was the incoming accumulator). -/
theorem find_nodeAux_ok_mem (qp : QuestionPaper) :
    ∀ (reads : List Read) (acc : Option ReadResult) (node : RNode),
      qp.find_nodeAux reads acc = .ok (.ok node) →
      (reads = [] ∧ acc = some (.ok node)) ∨
        ∃ rd, rd ∈ reads ∧ qp.resolve_read_intent rd = .ok (.ok node) := by
  intro reads
  induction reads with
  | nil =>
    intro acc node h
    cases acc with
    | none => simp [QuestionPaper.find_nodeAux] at h
    | some r =>
      left
      simp [QuestionPaper.find_nodeAux] at h
      simp [h]
  | cons rd rest ih =>
    intro acc node h
    cases hres : qp.resolve_read_intent rd with
    | error e =>
      cases e
      simp only [QuestionPaper.find_nodeAux, hres] at h
      cases h
    | ok res =>
      simp only [QuestionPaper.find_nodeAux, hres] at h
      rcases ih (some res) node h with ⟨_hnil, hacc⟩ | ⟨rd2, hmem, hres2⟩
      · right
        refine ⟨rd, List.mem_cons_self rd rest, ?_⟩
        rw [hres]
        simpa using hacc
      · right
        exact ⟨rd2, List.mem_cons_of_mem rd hmem, hres2⟩

/-- The node a successful `find_node` returns has an in-range index. -/
theorem find_node_ok_lt (qp : QuestionPaper) (reads : List Read)
    (node : RNode) (h : qp.find_node reads = .ok (.ok node)) :
    node.index < qp.nodes.length := by
  rcases find_nodeAux_ok_mem qp reads none node h with ⟨_, hacc⟩ | ⟨rd, _, hres⟩
  · cases hacc
  · exact resolve_read_intent_ok_lt qp rd node hres

/-- Membership in the association-list insert. -/
theorem hmInsert_mem {m : List (Nat × NodeData)} {k : Nat} {v : NodeData}
    {kv : Nat × NodeData} (h : kv ∈ hmInsert m k v) :
    kv = (k, v) ∨ kv ∈ m := by
  unfold hmInsert at h
  rcases List.mem_cons.mp h with h1 | h2
  · exact Or.inl h1
  · exact Or.inr (List.mem_filter.mp h2).1

/-- Re-inserting the same key overwrites: the second insert erases the
first binding entirely. -/
theorem hmInsert_hmInsert_same (m : List (Nat × NodeData)) (k : Nat)
    (v w : NodeData) : hmInsert (hmInsert m k v) k w = hmInsert m k w := by
  unfold hmInsert
  congr 1
  rw [List.filter_cons]
  simp [List.filter_filter]

/-- Read resolution ignores the `marked`, `skipped` and `notes`
stores. -/
theorem resolve_read_intent_frame (qp : QuestionPaper)
    (m s : List (Nat × NodeData)) (ns : List Note) (rd : Read) :
    ({ qp with marked := m, skipped := s, notes := ns } :
      QuestionPaper).resolve_read_intent rd = qp.resolve_read_intent rd := rfl

/-- The `find_node` loop ignores the `marked`, `skipped` and `notes`
stores. -/
theorem find_nodeAux_frame (qp : QuestionPaper)
    (m s : List (Nat × NodeData)) (ns : List Note) :
    ∀ (reads : List Read) (acc : Option ReadResult),
      ({ qp with marked := m, skipped := s, notes := ns } :
        QuestionPaper).find_nodeAux reads acc = qp.find_nodeAux reads acc := by
  intro reads
  induction reads with
  | nil => intro acc; cases acc <;> rfl
  | cons rd rest ih =>
    intro acc
    simp only [QuestionPaper.find_nodeAux, resolve_read_intent_frame]
    cases qp.resolve_read_intent rd with
    | error e => rfl
    | ok res => exact ih (some res)

/-- Case analysis of a non-panicking write: either the state is
unchanged (failed resolution) or exactly one store gained the entry of
the node `find_node` returned. -/
theorem resolve_write_cases (qp : QuestionPaper) (w : Write)
    (out2 : QuestionPaper × WriteResult)
    (h : qp.resolve_write_intent w = .ok out2) :
    out2.1 = qp ∨
      ∃ node, qp.find_node w.reads = .ok (.ok node) ∧
        (out2.1 = { qp with marked := hmInsert qp.marked node.index node.data } ∨
         out2.1 = { qp with skipped := hmInsert qp.skipped node.index node.data } ∨
         ∃ s, out2.1 = { qp with notes := qp.notes ++ [⟨s, node.index⟩] }) := by
  cases w with
  | Mark reads =>
    cases hfn : qp.find_node reads with
    | error e =>
      cases e
      simp only [QuestionPaper.resolve_write_intent,
        QuestionPaper.mark_for_review, hfn] at h
      cases h
    | ok res =>
      cases res with
      | error e =>
        simp only [QuestionPaper.resolve_write_intent,
          QuestionPaper.mark_for_review, hfn, Except.ok.injEq] at h
        subst h
        exact Or.inl rfl
      | ok node =>
        simp only [QuestionPaper.resolve_write_intent,
          QuestionPaper.mark_for_review, hfn, Except.ok.injEq] at h
        subst h
        exact Or.inr ⟨node, hfn, Or.inl rfl⟩
  | Skip reads =>
    cases hfn : qp.find_node reads with
    | error e =>
      cases e
      simp only [QuestionPaper.resolve_write_intent, QuestionPaper.skip, hfn] at h
      cases h
    | ok res =>
      cases res with
      | error e =>
        simp only [QuestionPaper.resolve_write_intent, QuestionPaper.skip, hfn,
          Except.ok.injEq] at h
        subst h
        exact Or.inl rfl
      | ok node =>
        simp only [QuestionPaper.resolve_write_intent, QuestionPaper.skip, hfn,
          Except.ok.injEq] at h
        subst h
        exact Or.inr ⟨node, hfn, Or.inr (Or.inl rfl)⟩
  | Note reads str =>
    cases hfn : qp.find_node reads with
    | error e =>
      cases e
      simp only [QuestionPaper.resolve_write_intent, QuestionPaper.note, hfn] at h
      cases h
    | ok res =>
      cases res with
      | error e =>
        simp only [QuestionPaper.resolve_write_intent, QuestionPaper.note, hfn,
          Except.ok.injEq] at h
        subst h
        exact Or.inl rfl
      | ok node =>
        simp only [QuestionPaper.resolve_write_intent, QuestionPaper.note, hfn,
          Except.ok.injEq] at h
        subst h
        exact Or.inr ⟨node, hfn, Or.inr (Or.inr ⟨str, rfl⟩)⟩

/-- Backward `resolve_referece` never produces the node at index 0. -/
theorem resolve_referece_back_pos (qp : QuestionPaper) (p : Node → Bool)
    (ref : Reference) (node : RNode) (hdir : ref.is_forward = false)
    (h : qp.resolve_referece p ref = .ok (.ok node)) : 1 ≤ node.index := by
  cases ref with
  | Start n =>
    simp only [QuestionPaper.resolve_referece] at h
    exact resolve_back_pos qp p 0 n.natAbs (.Start n) node hdir h
  | Current n =>
    simp only [QuestionPaper.resolve_referece] at h
    exact resolve_back_pos qp p qp.prev_index (n.natAbs + 1) (.Current n) node hdir h
  | End n =>
    simp only [QuestionPaper.resolve_referece] at h
    exact resolve_back_pos qp p qp.last_index n.natAbs (.End n) node hdir h

/-! The claims. -/

/-- C1 counterexample: on kinds `[Q, S, Q, Q, S]`, `Question(Start(1))`
resolves to index 0 (the claim says index 2), and `Question(Start(0))`
fails with the not-found error (the claim says index 0). -/
theorem C1_counterexample :
    qp0.resolve_read_intent (.Question (.Start 1)) = .ok (.ok ⟨0, "q0"⟩) ∧
    (⟨0, "q0"⟩ : RNode).index ≠ 2 ∧
    qp0.resolve_read_intent (.Question (.Start 0)) =
      .ok (.error "Could not find a next node") :=
  ⟨rfl, by decide, rfl⟩

/-- C1 (amended): resolving `Start(n)` scans forward from index 0
inclusive; for `|n| ≥ 1` it returns the node at which the predicate has
matched `|n|` times (required matches = `|n| - 1`, because `find`
subtracts one from the skip count), and for `n = 0` the skip counter
wraps around, so resolution always fails on a sequence of fewer than
`2 ^ 64` nodes; concretely, `Question(Start(1))` resolves to index 0 and
`Question(Start(2))` to index 2. -/
theorem C1_start_resolution (qp : QuestionPaper) (p : Node → Bool) (n : Int)
    (h1 : 1 ≤ n.natAbs) (h2 : n.natAbs < USIZE) :
    (qp.resolve_referece p (.Start n) =
      .ok (match scanFwd p qp.nodes 0 (n.natAbs - 1) with
           | some x => .ok ⟨x.1, x.2.data⟩
           | none => .error "Could not find a next node")) ∧
    (∀ j nd, scanFwd p qp.nodes 0 (n.natAbs - 1) = some (j, nd) →
      qp.nodes[j]? = some nd ∧ p nd = true ∧
        matchCountTo p qp.nodes j = n.natAbs - 1) ∧
    (qp.nodes.length < USIZE →
      qp.resolve_referece p (.Start 0) =
        .ok (.error "Could not find a next node")) := by
  refine ⟨?_, ?_, ?_⟩
  · have heq : qp.resolve_referece p (.Start n) =
        .ok (qp.find_next (qp.find p 0 n.natAbs)) := by
      simp [QuestionPaper.resolve_referece, QuestionPaper.resolve,
        Reference.is_forward]
    rw [heq]
    unfold QuestionPaper.find_next QuestionPaper.find
    dsimp only
    rw [wrapSub1_pos n.natAbs h1 (by omega), List.drop_zero]
  · intro j nd hscan
    obtain ⟨k, hk, hget, hpnd, hcnt⟩ :=
      scanFwd_some p qp.nodes 0 (n.natAbs - 1) j nd hscan
    have hkj : k = j := by omega
    subst hkj
    exact ⟨hget, hpnd, hcnt⟩
  · intro hlen
    have heq : qp.resolve_referece p (.Start 0) =
        .ok (qp.find_next (qp.find p 0 (0 : Int).natAbs)) := by
      simp [QuestionPaper.resolve_referece, QuestionPaper.resolve,
        Reference.is_forward]
    rw [heq]
    unfold QuestionPaper.find_next QuestionPaper.find
    dsimp only
    rw [show (0 : Int).natAbs = 0 from rfl, wrapSub1_zero,
      scanFwd_none p (qp.nodes.drop 0) 0 (USIZE - 1) (by simp; omega)]

/-- C1 witness: the amended semantics evaluated at `Start(2)` with the
Question predicate on the example paper: the second Question is
index 2. -/
theorem C1_start_resolution_witness :
    (1 ≤ (2 : Int).natAbs ∧ (2 : Int).natAbs < USIZE) ∧
    qp0.resolve_referece QuestionPredicate (.Start 2) = .ok (.ok ⟨2, "q2"⟩) := by
  have h1 : 1 ≤ (2 : Int).natAbs := by decide
  have h2 : (2 : Int).natAbs < USIZE := by norm_num [USIZE]
  refine ⟨⟨h1, h2⟩, ?_⟩
  rw [(C1_start_resolution qp0 QuestionPredicate 2 h1 h2).1]
  rfl

/-- C2 counterexample: after a successful read sets `prev_index = 2` on
kinds `[Q, S, Q, Q, S]`, `Question(Current(0))` resolves to index 2 (the
cursor node itself), not to index 3 as the claim states. -/
theorem C2_counterexample :
    qp0.resolve_intent (.ReadIntent (.Question (.Start 2))) =
      .ok (qp1, .Read (.ok "q2")) ∧
    qp1.prev_index = 2 ∧
    qp1.resolve_read_intent (.Question (.Current 0)) = .ok (.ok ⟨2, "q2"⟩) ∧
    (⟨2, "q2"⟩ : RNode).index ≠ 3 :=
  ⟨rfl, rfl, rfl, by decide⟩

/-- C2 (amended): a `Current(n)` reference is anchored at `prev_index`
and searched in the direction given by the sign of `n`; in both
directions it requires `|n| + 1` predicate matches counting from
`prev_index` inclusive (the `+1` of `resolve_referece` is cancelled by
the `-1` of `find`), so `Current(0)` resolves to the node at
`prev_index` itself whenever that node matches the predicate, and a
backward `Current` stops before index 0, which the backward scan never
examines. -/
theorem C2_current_resolution (qp : QuestionPaper) (p : Node → Bool) (n : Int)
    (h2 : n.natAbs < USIZE) :
    (0 ≤ n →
      (qp.resolve_referece p (.Current n) =
        .ok (match scanFwd p (qp.nodes.drop qp.prev_index) qp.prev_index n.natAbs with
             | some x => .ok ⟨x.1, x.2.data⟩
             | none => .error "Could not find a next node")) ∧
      (∀ j nd,
        scanFwd p (qp.nodes.drop qp.prev_index) qp.prev_index n.natAbs = some (j, nd) →
        qp.prev_index ≤ j ∧ qp.nodes[j]? = some nd ∧ p nd = true ∧
          matchCountSeg p qp.nodes qp.prev_index (j - qp.prev_index) = n.natAbs)) ∧
    (n < 0 →
      (qp.resolve_referece p (.Current n) =
        match scanBack qp.nodes p qp.prev_index n.natAbs with
        | .error () => .error ()
        | .ok (some x) => .ok (.ok ⟨x.1, x.2.data⟩)
        | .ok none => .ok (.error "Could not resolve a previous node")) ∧
      (∀ i nd, scanBack qp.nodes p qp.prev_index n.natAbs = .ok (some (i, nd)) →
        1 ≤ i ∧ i ≤ qp.prev_index ∧ qp.nodes[i]? = some nd ∧ p nd = true ∧
          matchCountIn qp.nodes p i qp.prev_index = n.natAbs)) := by
  constructor
  · intro h0
    constructor
    · have heq : qp.resolve_referece p (.Current n) =
          .ok (qp.find_next (qp.find p qp.prev_index (n.natAbs + 1))) := by
        simp [QuestionPaper.resolve_referece, QuestionPaper.resolve,
          Reference.is_forward, h0]
      rw [heq]
      unfold QuestionPaper.find_next QuestionPaper.find
      dsimp only
      rw [wrapSub1_pos (n.natAbs + 1) (by omega) (by omega), Nat.add_sub_cancel]
    · intro j nd hscan
      obtain ⟨k, hk, hget, hpnd, hcnt⟩ :=
        scanFwd_some p (qp.nodes.drop qp.prev_index) qp.prev_index n.natAbs j nd hscan
      rw [List.getElem?_drop] at hget
      refine ⟨by omega, by rw [hk]; exact hget, hpnd, ?_⟩
      unfold matchCountSeg
      rw [show j - qp.prev_index = k from by omega]
      exact hcnt
  · intro hneg
    have h0 : ¬ (0 : Int) ≤ n := by omega
    constructor
    · have heq : qp.resolve_referece p (.Current n) =
          qp.find_back (qp.find p qp.prev_index (n.natAbs + 1)) := by
        simp [QuestionPaper.resolve_referece, QuestionPaper.resolve,
          Reference.is_forward, h0]
      rw [heq]
      unfold QuestionPaper.find_back QuestionPaper.find
      dsimp only
      rw [wrapSub1_pos (n.natAbs + 1) (by omega) (by omega), Nat.add_sub_cancel]
    · intro i nd h
      exact scanBack_some qp.nodes p qp.prev_index n.natAbs i nd h

/-- C2 witness: forward — `Current(0)` with cursor 2 and the Question
predicate returns the cursor node itself (index 2); backward —
`Current(-1)` with cursor 4 and the Section predicate returns index 1,
the second Section counting down from the cursor inclusive. -/
theorem C2_current_resolution_witness :
    ((0 : Int).natAbs < USIZE ∧ (0 : Int) ≤ 0 ∧
      (-1 : Int).natAbs < USIZE ∧ (-1 : Int) < 0) ∧
    qp1.resolve_referece QuestionPredicate (.Current 0) = .ok (.ok ⟨2, "q2"⟩) ∧
    qp2.resolve_referece SectionPredicate (.Current (-1)) = .ok (.ok ⟨1, "s1"⟩) := by
  have ha : (0 : Int).natAbs < USIZE := by norm_num [USIZE]
  have hb : (-1 : Int).natAbs < USIZE := by norm_num [USIZE]
  refine ⟨⟨ha, le_refl 0, hb, by norm_num⟩, ?_, ?_⟩
  · rw [((C2_current_resolution qp1 QuestionPredicate 0 ha).1 (le_refl 0)).1]
    rfl
  · rw [((C2_current_resolution qp2 SectionPredicate (-1) hb).2 (by norm_num)).1]
    rfl

/-- C3 counterexample: on kinds `[Q, S, Q, Q, S]`, `Section(End(0))`
fails with the not-found error (the claim says index 4) and
`Section(End(1))` resolves to index 4 (the claim says index 1). -/
theorem C3_counterexample :
    qp0.resolve_read_intent (.Section (.End 0)) =
      .ok (.error "Could not resolve a previous node") ∧
    qp0.resolve_read_intent (.Section (.End 1)) = .ok (.ok ⟨4, "s4"⟩) ∧
    (⟨4, "s4"⟩ : RNode).index ≠ 1 :=
  ⟨rfl, rfl, by decide⟩

/-- C3 (amended): resolving `End(n)` scans backward from `last_index`
inclusive down to index 1 (index 0 is never examined); for `|n| ≥ 1` it
returns the node at which the predicate has matched `|n|` times counting
down from the anchor (required matches = `|n| - 1` after the `-1` of
`find`), and for `n = 0` the skip counter wraps around so resolution
always fails (for `last_index < 2 ^ 64`); concretely `Section(End(1))`
resolves to index 4 and `Section(End(2))` to index 1. -/
theorem C3_end_resolution (qp : QuestionPaper) (p : Node → Bool) (n : Int)
    (h1 : 1 ≤ n.natAbs) (h2 : n.natAbs < USIZE) :
    (qp.resolve_referece p (.End n) =
      match scanBack qp.nodes p qp.last_index (n.natAbs - 1) with
      | .error () => .error ()
      | .ok (some x) => .ok (.ok ⟨x.1, x.2.data⟩)
      | .ok none => .ok (.error "Could not resolve a previous node")) ∧
    (∀ i nd, scanBack qp.nodes p qp.last_index (n.natAbs - 1) = .ok (some (i, nd)) →
      1 ≤ i ∧ i ≤ qp.last_index ∧ qp.nodes[i]? = some nd ∧ p nd = true ∧
        matchCountIn qp.nodes p i qp.last_index = n.natAbs - 1) ∧
    (qp.last_index < qp.nodes.length → qp.last_index < USIZE →
      qp.resolve_referece p (.End 0) =
        .ok (.error "Could not resolve a previous node")) := by
  refine ⟨?_, ?_, ?_⟩
  · have heq : qp.resolve_referece p (.End n) =
        qp.find_back (qp.find p qp.last_index n.natAbs) := by
      simp [QuestionPaper.resolve_referece, QuestionPaper.resolve,
        Reference.is_forward]
    rw [heq]
    unfold QuestionPaper.find_back QuestionPaper.find
    dsimp only
    rw [wrapSub1_pos n.natAbs h1 (by omega)]
  · intro i nd h
    exact scanBack_some qp.nodes p qp.last_index (n.natAbs - 1) i nd h
  · intro hlen hu
    have heq : qp.resolve_referece p (.End 0) =
        qp.find_back (qp.find p qp.last_index (0 : Int).natAbs) := by
      simp [QuestionPaper.resolve_referece, QuestionPaper.resolve,
        Reference.is_forward]
    rw [heq]
    unfold QuestionPaper.find_back QuestionPaper.find
    dsimp only
    rw [show (0 : Int).natAbs = 0 from rfl, wrapSub1_zero,
      scanBack_none qp.nodes p qp.last_index (USIZE - 1) hlen (by omega)]

/-- C3 witness: the amended semantics evaluated at `End(2)` with the
Section predicate on the example paper: the second Section from the end
is index 1. -/
theorem C3_end_resolution_witness :
    (1 ≤ (2 : Int).natAbs ∧ (2 : Int).natAbs < USIZE) ∧
    qp0.resolve_referece SectionPredicate (.End 2) = .ok (.ok ⟨1, "s1"⟩) := by
  have h1 : 1 ≤ (2 : Int).natAbs := by decide
  have h2 : (2 : Int).natAbs < USIZE := by norm_num [USIZE]
  refine ⟨⟨h1, h2⟩, ?_⟩
  rw [(C3_end_resolution qp0 SectionPredicate 2 h1 h2).1]
  rfl

/-- C4: the skip-counter arithmetic of `find` does underflow.  A
zero-offset reference passes skip count 0 to `find`, whose `skip - 1`
wraps to `2 ^ 64 - 1` (a checked build panics on this subtraction), so
`Question(Start(0))` fails even though the node at index 0 matches the
Question predicate. -/
theorem C4_zero_offset_underflow :
    (qp0.find QuestionPredicate 0 0).skip = USIZE - 1 ∧
    wrapSub1 0 = USIZE - 1 ∧
    QuestionPredicate ⟨.Question, "q0"⟩ = true ∧
    qp0.resolve_intent (.ReadIntent (.Question (.Start 0))) =
      .ok (qp0, .Read (.error "Could not find a next node")) :=
  ⟨wrapSub1_zero, wrapSub1_zero, rfl, rfl⟩

/-- C5: write intents are all-or-nothing.  An empty read-intent list
makes `find_node` fail with a descriptive error, and whenever the
deciding resolution fails the dispatcher returns a descriptive error
with the session state (including `prev_index`, `marked`, `skipped` and
`notes`) exactly as before the call. -/
theorem C5_write_all_or_nothing (qp : QuestionPaper) (w : Write) :
    (w.reads = [] →
      qp.find_node w.reads = .ok (.error "Could not find the specified request")) ∧
    (∀ e, qp.find_node w.reads = .ok (.error e) →
      qp.resolve_intent (.WriteIntent w) =
        .ok (qp, .Write (.Error (write_error_msg w)))) := by
  constructor
  · intro h
    rw [h]
    rfl
  · intro e h
    cases w with
    | Mark reads =>
      simp only [Write.reads] at h
      simp [QuestionPaper.resolve_intent, QuestionPaper.resolve_write_intent,
        QuestionPaper.mark_for_review, h, write_error_msg]
    | Skip reads =>
      simp only [Write.reads] at h
      simp [QuestionPaper.resolve_intent, QuestionPaper.resolve_write_intent,
        QuestionPaper.skip, h, write_error_msg]
    | Note reads str =>
      simp only [Write.reads] at h
      simp [QuestionPaper.resolve_intent, QuestionPaper.resolve_write_intent,
        QuestionPaper.note, h, write_error_msg]

/-- C5 witness: a `Mark` with an empty read list fails and leaves the
fresh example session untouched. -/
theorem C5_write_all_or_nothing_witness :
    qp0.find_node (Write.Mark []).reads =
      .ok (.error "Could not find the specified request") ∧
    qp0.resolve_intent (.WriteIntent (.Mark [])) =
      .ok (qp0, .Write (.Error (write_error_msg (.Mark [])))) := by
  have hempty := (C5_write_all_or_nothing qp0 (.Mark [])).1 rfl
  exact ⟨hempty,
    (C5_write_all_or_nothing qp0 (.Mark [])).2
      "Could not find the specified request" hempty⟩

/-- C6: with in-range anchors, every write intent (`Mark`, `Skip`,
`Note`) is decided solely by the last read intent of its list: all
entries are resolved in order (the side-effect-free resolutions of the
earlier ones are discarded), the affected index is the one the last
entry resolves to, and the write fails exactly when the last entry
fails, even if earlier entries succeeded. -/
theorem C6_last_read_decides (qp : QuestionPaper) (w : Write) (r : Read)
    (hp : qp.prev_index < qp.nodes.length)
    (hl : qp.last_index < qp.nodes.length)
    (h : w.reads.getLast? = some r) :
    qp.resolve_write_intent w =
      match qp.resolve_read_intent r with
      | .error () => .error ()
      | .ok (.ok node) => .ok (write_apply qp w node, .Success (write_success_msg w))
      | .ok (.error _e) => .ok (qp, .Error (write_error_msg w)) := by
  have hfn := find_node_last qp hp hl w.reads r h
  cases w with
  | Mark reads =>
    simp only [Write.reads] at hfn
    cases hres : qp.resolve_read_intent r with
    | error e =>
      cases e
      rw [hres] at hfn
      simp [QuestionPaper.resolve_write_intent, QuestionPaper.mark_for_review, hfn]
    | ok res =>
      rw [hres] at hfn
      cases res with
      | ok node =>
        simp [QuestionPaper.resolve_write_intent, QuestionPaper.mark_for_review,
          hfn, write_apply, write_success_msg]
      | error e2 =>
        simp [QuestionPaper.resolve_write_intent, QuestionPaper.mark_for_review,
          hfn, write_error_msg]
  | Skip reads =>
    simp only [Write.reads] at hfn
    cases hres : qp.resolve_read_intent r with
    | error e =>
      cases e
      rw [hres] at hfn
      simp [QuestionPaper.resolve_write_intent, QuestionPaper.skip, hfn]
    | ok res =>
      rw [hres] at hfn
      cases res with
      | ok node =>
        simp [QuestionPaper.resolve_write_intent, QuestionPaper.skip,
          hfn, write_apply, write_success_msg]
      | error e2 =>
        simp [QuestionPaper.resolve_write_intent, QuestionPaper.skip,
          hfn, write_error_msg]
  | Note reads str =>
    simp only [Write.reads] at hfn
    cases hres : qp.resolve_read_intent r with
    | error e =>
      cases e
      rw [hres] at hfn
      simp [QuestionPaper.resolve_write_intent, QuestionPaper.note, hfn]
    | ok res =>
      rw [hres] at hfn
      cases res with
      | ok node =>
        simp [QuestionPaper.resolve_write_intent, QuestionPaper.note,
          hfn, write_apply, write_success_msg]
      | error e2 =>
        simp [QuestionPaper.resolve_write_intent, QuestionPaper.note,
          hfn, write_error_msg]

/-- C6 witness: on the example paper, the claim's own batch
`Mark([Question(Start(0)), Section(Start(0))])` fails as a whole
because its last entry `Section(Start(0))` fails (the zero-offset
underflow of C4), even though no entry panics; and
`Mark([Question(Start(1)), Section(Start(1))])` marks index 1, the
resolution of its last entry `Section(Start(1))` — not index 0, where
`Question(Start(1))` resolves. -/
theorem C6_last_read_decides_witness :
    (qp0.prev_index < qp0.nodes.length ∧ qp0.last_index < qp0.nodes.length) ∧
    qp0.resolve_read_intent (.Question (.Start 1)) = .ok (.ok ⟨0, "q0"⟩) ∧
    qp0.resolve_read_intent (.Section (.Start 1)) = .ok (.ok ⟨1, "s1"⟩) ∧
    qp0.resolve_write_intent (.Mark [.Question (.Start 0), .Section (.Start 0)]) =
      .ok (qp0,
        .Error "Could not mark the specified item for review. Please try again") ∧
    qp0.resolve_write_intent (.Mark [.Question (.Start 1), .Section (.Start 1)]) =
      .ok ({ qp0 with marked := [(1, "s1")] },
        .Success "Question has been marked for review") := by
  refine ⟨⟨by decide, by decide⟩, rfl, rfl, ?_, ?_⟩
  · rw [C6_last_read_decides qp0 (.Mark [.Question (.Start 0), .Section (.Start 0)])
      (.Section (.Start 0)) (by decide) (by decide) rfl]
    rfl
  · rw [C6_last_read_decides qp0 (.Mark [.Question (.Start 1), .Section (.Start 1)])
      (.Section (.Start 1)) (by decide) (by decide) rfl]
    rfl

/-- C7: `prev_index` starts at 0 and is the only field a successful
read changes; a failed read, every write and every meta intent leave it
(indeed, for failed reads and meta intents, the whole state)
unchanged. -/
theorem C7_cursor_frame :
    (∀ (nodes : List Node) (li tq : Nat),
      (QuestionPaper.new nodes li tq).prev_index = 0) ∧
    (∀ (qp : QuestionPaper) (rd : Read) (node : RNode),
      qp.resolve_read_intent rd = .ok (.ok node) →
      qp.resolve_intent (.ReadIntent rd) =
        .ok ({ qp with prev_index := node.index }, .Read (.ok node.data))) ∧
    (∀ (qp : QuestionPaper) (rd : Read) (e : String),
      qp.resolve_read_intent rd = .ok (.error e) →
      qp.resolve_intent (.ReadIntent rd) = .ok (qp, .Read (.error e))) ∧
    (∀ (qp : QuestionPaper) (w : Write) (out : QuestionPaper × IntentResult),
      qp.resolve_intent (.WriteIntent w) = .ok out →
      out.1.prev_index = qp.prev_index) ∧
    (∀ (qp : QuestionPaper) (m : MetaIntent) (out : QuestionPaper × IntentResult),
      qp.resolve_intent (.Meta m) = .ok out → out.1 = qp) := by
  refine ⟨fun nodes li tq => rfl, ?_, ?_, ?_, ?_⟩
  · intro qp rd node h
    simp [QuestionPaper.resolve_intent, h, QuestionPaper.update_previous]
  · intro qp rd e h
    simp [QuestionPaper.resolve_intent, h]
  · intro qp w out h
    cases hw : qp.resolve_write_intent w with
    | error e =>
      cases e
      simp only [QuestionPaper.resolve_intent, hw] at h
      cases h
    | ok out2 =>
      simp only [QuestionPaper.resolve_intent, hw, Except.ok.injEq] at h
      subst h
      rcases resolve_write_cases qp w out2 hw with hsame | ⟨node, _hfn, hcase⟩
      · rw [hsame]
      · rcases hcase with hm | hs | ⟨str, hn⟩
        · rw [hm]
        · rw [hs]
        · rw [hn]
  · intro qp m out h
    cases m with
    | Marked =>
      simp only [QuestionPaper.resolve_intent, Except.ok.injEq] at h
      rw [← h]
    | Skipped =>
      simp only [QuestionPaper.resolve_intent, Except.ok.injEq] at h
      rw [← h]

/-- C7 witness: the read `Question(Start(1))` on the example paper
resolves to index 0 and the dispatcher sets only `prev_index`. -/
theorem C7_cursor_frame_witness :
    qp0.resolve_read_intent (.Question (.Start 1)) = .ok (.ok ⟨0, "q0"⟩) ∧
    qp0.resolve_intent (.ReadIntent (.Question (.Start 1))) =
      .ok ({ qp0 with prev_index := 0 }, .Read (.ok "q0")) :=
  ⟨rfl, C7_cursor_frame.2.1 qp0 (.Question (.Start 1)) ⟨0, "q0"⟩ rfl⟩

/-- C8: every index stored in `marked`, `skipped` or `notes` lies in
`[0, nodes.length)`: the invariant holds for a fresh session and is
preserved by every non-panicking `resolve_intent` call. -/
theorem C8_index_invariant :
    (∀ (nodes : List Node) (li tq : Nat),
      StateInv (QuestionPaper.new nodes li tq)) ∧
    (∀ (qp : QuestionPaper) (i : Intent) (out : QuestionPaper × IntentResult),
      StateInv qp → qp.resolve_intent i = .ok out → StateInv out.1) := by
  constructor
  · intro nodes li tq
    refine ⟨?_, ?_, ?_⟩ <;> intro x hx <;> simp [QuestionPaper.new] at hx
  · intro qp i out hinv h
    cases i with
    | ReadIntent rd =>
      cases hres : qp.resolve_read_intent rd with
      | error e =>
        cases e
        simp only [QuestionPaper.resolve_intent, hres] at h
        cases h
      | ok res =>
        cases res with
        | ok node =>
          simp only [QuestionPaper.resolve_intent, hres,
            QuestionPaper.update_previous, Except.ok.injEq] at h
          subst h
          exact hinv
        | error e =>
          simp only [QuestionPaper.resolve_intent, hres, Except.ok.injEq] at h
          subst h
          exact hinv
    | WriteIntent w =>
      cases hw : qp.resolve_write_intent w with
      | error e =>
        cases e
        simp only [QuestionPaper.resolve_intent, hw] at h
        cases h
      | ok out2 =>
        simp only [QuestionPaper.resolve_intent, hw, Except.ok.injEq] at h
        subst h
        rcases resolve_write_cases qp w out2 hw with hsame | ⟨node, hfn, hcase⟩
        · dsimp only
          rw [hsame]
          exact hinv
        · have hlt := find_node_ok_lt qp w.reads node hfn
          obtain ⟨h1, h2, h3⟩ := hinv
          rcases hcase with hm | hs | ⟨str, hn⟩
          · dsimp only
            rw [hm]
            refine ⟨?_, h2, h3⟩
            intro kv hkv
            rcases hmInsert_mem hkv with hkv1 | hkv2
            · rw [hkv1]
              exact hlt
            · exact h1 kv hkv2
          · dsimp only
            rw [hs]
            refine ⟨h1, ?_, h3⟩
            intro kv hkv
            rcases hmInsert_mem hkv with hkv1 | hkv2
            · rw [hkv1]
              exact hlt
            · exact h2 kv hkv2
          · dsimp only
            rw [hn]
            refine ⟨h1, h2, ?_⟩
            intro nt hnt
            rcases List.mem_append.mp hnt with hold | hnew
            · exact h3 nt hold
            · rw [List.mem_singleton.mp hnew]
              exact hlt
    | Meta m =>
      cases m with
      | Marked =>
        simp only [QuestionPaper.resolve_intent, Except.ok.injEq] at h
        subst h
        exact hinv
      | Skipped =>
        simp only [QuestionPaper.resolve_intent, Except.ok.injEq] at h
        subst h
        exact hinv

/-- C8 witness: the invariant holds for the fresh example session and
is preserved by the write that marks index 1. -/
theorem C8_index_invariant_witness :
    StateInv qp0 ∧
    StateInv ({ qp0 with marked := [(1, "s1")] } : QuestionPaper) := by
  have hinv : StateInv qp0 := C8_index_invariant.1 exNodes 4 3
  refine ⟨hinv, ?_⟩
  exact C8_index_invariant.2 qp0
    (.WriteIntent (.Mark [.Question (.Start 1), .Section (.Start 1)]))
    ({ qp0 with marked := [(1, "s1")] },
      .Write (.Success "Question has been marked for review"))
    hinv rfl

/-- C9: marking the same index twice keeps exactly one `marked` entry
for it: two `Mark` writes whose deciding reads resolve to the same
index leave `num_marked` equal to what the single second `Mark` alone
would produce. -/
theorem C9_mark_overwrite (qp : QuestionPaper) (reads1 reads2 : List Read)
    (n1 n2 : RNode)
    (h1 : qp.find_node reads1 = .ok (.ok n1))
    (h2 : qp.find_node reads2 = .ok (.ok n2))
    (heq : n1.index = n2.index) :
    qp.resolve_write_intent (.Mark reads1) =
      .ok ({ qp with marked := hmInsert qp.marked n1.index n1.data },
        .Success "Question has been marked for review") ∧
    ({ qp with marked := hmInsert qp.marked n1.index n1.data } :
        QuestionPaper).resolve_write_intent (.Mark reads2) =
      .ok ({ qp with
               marked := hmInsert (hmInsert qp.marked n1.index n1.data)
                 n2.index n2.data },
        .Success "Question has been marked for review") ∧
    ({ qp with
         marked := hmInsert (hmInsert qp.marked n1.index n1.data)
           n2.index n2.data } :
        QuestionPaper).num_marked =
      ({ qp with marked := hmInsert qp.marked n2.index n2.data } :
        QuestionPaper).num_marked := by
  refine ⟨?_, ?_, ?_⟩
  · simp [QuestionPaper.resolve_write_intent, QuestionPaper.mark_for_review, h1]
  · have hfn2 : ({ qp with marked := hmInsert qp.marked n1.index n1.data } :
        QuestionPaper).find_node reads2 = .ok (.ok n2) := by
      have hf := find_nodeAux_frame qp (hmInsert qp.marked n1.index n1.data)
        qp.skipped qp.notes reads2 none
      exact hf.trans h2
    simp [QuestionPaper.resolve_write_intent, QuestionPaper.mark_for_review, hfn2]
  · simp only [QuestionPaper.num_marked]
    rw [heq, hmInsert_hmInsert_same]

/-- C9 witness: marking `Question(Start(1))` (index 0) twice on the
example paper leaves one entry, the same count as a single mark. -/
theorem C9_mark_overwrite_witness :
    (qp0.find_node [Read.Question (.Start 1)] = .ok (.ok ⟨0, "q0"⟩)) ∧
    ({ qp0 with marked := hmInsert (hmInsert qp0.marked 0 "q0") 0 "q0" } :
        QuestionPaper).num_marked =
      ({ qp0 with marked := hmInsert qp0.marked 0 "q0" } :
        QuestionPaper).num_marked := by
  refine ⟨rfl, ?_⟩
  exact (C9_mark_overwrite qp0 [.Question (.Start 1)] [.Question (.Start 1)]
    ⟨0, "q0"⟩ ⟨0, "q0"⟩ rfl rfl rfl).2.2

/-- C10: a backward resolution (an `End` reference, or a `Current`
reference with a negative offset) never returns the node at index 0:
the backward loop's guard `next > 0` stops the scan before index 0 is
examined, so a match that exists only at index 0 yields a not-found
error instead. -/
theorem C10_backward_nonzero (qp : QuestionPaper) (rd : Read) (node : RNode)
    (hdir : (Read.reference rd).is_forward = false)
    (h : qp.resolve_read_intent rd = .ok (.ok node)) :
    node.index ≠ 0 := by
  cases rd with
  | Question r =>
    have hpos := resolve_referece_back_pos qp QuestionPredicate r node hdir h
    omega
  | Section r =>
    have hpos := resolve_referece_back_pos qp SectionPredicate r node hdir h
    omega

/-- C10 witness: the backward read `Section(End(1))` on the example
paper resolves to index 4, which is nonzero. -/
theorem C10_backward_nonzero_witness :
    ((Read.reference (.Section (.End 1))).is_forward = false ∧
      qp0.resolve_read_intent (.Section (.End 1)) = .ok (.ok ⟨4, "s4"⟩)) ∧
    (⟨4, "s4"⟩ : RNode).index ≠ 0 :=
  ⟨⟨rfl, rfl⟩, C10_backward_nonzero qp0 (.Section (.End 1)) ⟨4, "s4"⟩ rfl rfl⟩

end InableNav
